import Mathlib

set_option maxRecDepth 8000

/-!
Shallow embedding of the entity-resolution and canonical-ingestion core of the
usaspend repository (src/src/deduplication.py, src/src/storage.py,
src/src/pipeline.py, src/src/schema.py, src/src/mappings/sbir.py).

Modelling conventions:
* Python floats are modelled as exact rationals (ℚ).  All concrete inputs used
  in theorems are chosen away from binary-rounding knife edges, so the rational
  model and CPython float arithmetic agree on every comparison performed.
* SQLite TEXT date columns are Lean Strings compared lexicographically, which
  is exactly how both Python (`seen_date < first_seen`) and SQLite
  (`MIN`/`MAX` on TEXT) compare them for ASCII ISO dates.
* Nullable columns are Option values.
* The inputs considered are ASCII, so Python `str.lower`, `re` word characters
  and `str.split` coincide with the ASCII character predicates used here.
* String transformations are implemented over `List Char` by structural
  recursion (rather than the byte-indexed core String primitives) so that
  every definition evaluates inside the kernel; `String.mk`/`String.data`
  convert at the boundaries.
-/

/-- Lexicographic strict order on character lists, by code point: the order
Python uses for `str < str` and SQLite for TEXT comparison (identical on the
ASCII ISO-date strings compared here). -/
def charListLt : List Char → List Char → Bool
  | [], [] => false
  | [], _ :: _ => true
  | _ :: _, [] => false
  | a :: as, b :: bs => if a < b then true else if b < a then false else charListLt as bs

/-- String strict order, in a form that evaluates. -/
def strLt (a b : String) : Bool :=
  charListLt a.toList b.toList

/-- Python `str.lower` on the ASCII inputs considered. -/
def charsLower (l : List Char) : List Char :=
  l.map Char.toLower

/-- Python `str.upper` on the ASCII inputs considered. -/
def charsUpper (l : List Char) : List Char :=
  l.map Char.toUpper

/-- Python `str.strip()`: drop leading and trailing whitespace. -/
def charsStrip (l : List Char) : List Char :=
  ((l.dropWhile Char.isWhitespace).reverse.dropWhile Char.isWhitespace).reverse

/-- Helper for `tokensOf`: accumulate the current (reversed) token. -/
def tokensAux : List Char → List Char → List (List Char)
  | [], cur => if cur = [] then [] else [cur.reverse]
  | c :: rest, cur =>
    if c.isWhitespace then
      if cur = [] then tokensAux rest [] else cur.reverse :: tokensAux rest []
    else tokensAux rest (c :: cur)

/-- Python `s.split()`: split on whitespace runs, dropping empty pieces. -/
def tokensOf (l : List Char) : List (List Char) :=
  tokensAux l []

/-- Stop words of `DeduplicationEngine._load_common_words`
(src/src/deduplication.py lines 34-43), transcribed verbatim. -/
def commonWords : List String :=
  ["the", "and", "or", "but", "in", "on", "at", "to", "for", "of", "with", "by",
   "a", "an", "as", "if", "it", "is", "was", "be", "been", "being", "have", "has",
   "had", "do", "does", "did", "will", "would", "could", "should", "may", "might",
   "must", "can", "corp", "corporation", "inc", "incorporated", "llc", "ltd",
   "limited", "co", "company", "group", "holdings", "enterprises", "solutions",
   "systems", "technologies", "international", "global", "usa", "us", "america"]

/-- Business-suffix tokens removed by the word-boundary regexes in
`_normalize_company_name` (src/src/deduplication.py lines 176-181).  At the
point the regexes run, the string is word-characters-only tokens joined by
single spaces (punctuation was replaced by spaces and whitespace collapsed),
so each regex `\bword\.?\b` deletes exactly the whole tokens equal to `word`;
token-level filtering is therefore an exact model. -/
def suffixWords : List String :=
  ["corp", "corporation", "incorporated", "inc", "llc", "limited", "ltd", "co", "company"]

/-- The stop words as character lists. -/
def commonWordsChars : List (List Char) :=
  commonWords.map String.toList

/-- The suffix tokens as character lists. -/
def suffixWordsChars : List (List Char) :=
  suffixWords.map String.toList

/-- Python regex `\w` on the ASCII inputs considered: letters, digits, underscore. -/
def isWordCharAscii (c : Char) : Bool :=
  c.isAlphanum || c = '_'

/-- Join tokens with single spaces (`" ".join`). -/
def joinSpace : List (List Char) → List Char
  | [] => []
  | [t] => t
  | t :: ts => t ++ ' ' :: joinSpace ts

/-- `DeduplicationEngine._normalize_company_name` (src/src/deduplication.py
lines 161-187): lowercase, replace non-word non-space characters by spaces,
collapse whitespace, drop legal-suffix tokens, drop common words, re-join. -/
def normalizeName (name : String) : String :=
  if name = "" then ""
  else
    let lowered := charsLower name.toList
    let depunct := lowered.map (fun c => if isWordCharAscii c || c.isWhitespace then c else ' ')
    let toks := tokensOf depunct
    let toks := toks.filter (fun t => !(suffixWordsChars.contains t))
    let toks := toks.filter (fun t => !(commonWordsChars.contains t))
    String.mk (joinSpace toks)

/-- The alphanumeric-only lowercase collapse used by
`DeduplicationEngine._normalized_domain` (src/src/deduplication.py line 195):
`re.sub(r"[^a-zA-Z0-9]", "", company_name.lower())`. -/
def collapseAlnum (s : String) : String :=
  String.mk ((charsLower s.toList).filter (fun c => c.isAlphanum))

/-- `DeduplicationEngine._normalized_domain` (src/src/deduplication.py
lines 189-196): None for an empty name, else the collapse when its length
exceeds 3, else None. -/
def normalizedDomain (s : String) : Option String :=
  if s = "" then none
  else
    let c := collapseAlnum s
    if 3 < c.length then some c else none

/-- The acronym of `_is_acronym_match.get_acronym` (src/src/deduplication.py
lines 200-204): empty for at most one word, else the uppercased first letters. -/
def getAcronym (s : String) : String :=
  let ws := tokensOf s.toList
  if ws.length ≤ 1 then ""
  else String.mk (charsUpper (ws.map (fun w => w.headD ' ')))

/-- Python `name.replace(" ", "").upper()` as used in `_is_acronym_match`. -/
def despaceUpper (s : String) : String :=
  String.mk (charsUpper (s.toList.filter (fun c => c ≠ ' ')))

/-- `DeduplicationEngine._is_acronym_match` (src/src/deduplication.py
lines 198-215).  First disjunct: both acronyms match and have length at least
three.  Remaining disjuncts: a nonempty acronym of one name equals the
despaced uppercase of the other. -/
def isAcronymMatch (n1 n2 : String) : Bool :=
  (decide (3 ≤ (getAcronym n1).length) && decide (getAcronym n1 = getAcronym n2)) ||
  ((decide (getAcronym n1 ≠ "") && decide (getAcronym n1 = despaceUpper n2)) ||
   (decide (getAcronym n2 ≠ "") && decide (getAcronym n2 = despaceUpper n1)))

/-! ### CPython difflib.SequenceMatcher, junk-free path

`_calculate_name_similarity` calls `SequenceMatcher(None, norm1, norm2).ratio()`.
The normalized names handled here are far below 200 characters, so difflib's
autojunk heuristic never marks any element as junk and the junk machinery is a
no-op; what remains is the classic greedy longest-matching-block recursion
transliterated below.  The post-loop junk extension loops of
`find_longest_match` cannot fire without junk (the inner dynamic program
already records maximal runs), so they are omitted. -/

/-- Indices `j` of occurrences of `c` in `b` with `blo ≤ j < bhi`, ascending:
the `b2j` lookup of `SequenceMatcher.find_longest_match` combined with its
`continue`/`break` bounds filtering. -/
def jIndices (b : List Char) (c : Char) (blo bhi : Nat) : List Nat :=
  (List.range b.length).filter (fun j => decide (blo ≤ j) && decide (j < bhi) && decide (b.getD j ' ' = c))

/-- One outer-loop iteration (one `i`) of `find_longest_match`: fold over the
occurrence indices `js` of `a[i]` in `b`, building the fresh `newj2len` table
and updating the best block on strictly greater run length. -/
def flmStep (j2len : Nat → Nat) (js : List Nat) (best : Nat × Nat × Nat) (i : Nat) :
    (Nat → Nat) × (Nat × Nat × Nat) :=
  js.foldl
    (fun acc j =>
      let k := (if j = 0 then 0 else j2len (j - 1)) + 1
      let tbl := fun x => if x = j then k else acc.1 x
      let best := if acc.2.2.2 < k then (i + 1 - k, j + 1 - k, k) else acc.2
      (tbl, best))
    ((fun _ => 0), best)

/-- `SequenceMatcher.find_longest_match(alo, ahi, blo, bhi)` without junk:
returns `(besti, bestj, bestsize)`. -/
def findLongestMatch (a b : List Char) (alo ahi blo bhi : Nat) : Nat × Nat × Nat :=
  let r := (List.range' alo (ahi - alo)).foldl
    (fun (acc : (Nat → Nat) × (Nat × Nat × Nat)) i =>
      flmStep acc.1 (jIndices b (a.getD i ' ') blo bhi) acc.2 i)
    ((fun _ => 0), (alo, blo, 0))
  r.2

/-- Total size of the matching blocks of `get_matching_blocks` on the region
`[alo,ahi) × [blo,bhi)`: the greedy recursion around `find_longest_match`.
The queue order of CPython's iterative version does not affect the blocks
found (regions are decomposed independently), so their total size equals this
recursive sum.  `fuel` only bounds the recursion depth; each recursive call
strictly shrinks `(ahi-alo)+(bhi-blo)`, so the initial fuel used by
`seqMatchTotal` always suffices. -/
def totalMatchFuel (a b : List Char) : Nat → Nat → Nat → Nat → Nat → Nat
  | 0, _, _, _, _ => 0
  | fuel + 1, alo, ahi, blo, bhi =>
    let r := findLongestMatch a b alo ahi blo bhi
    if r.2.2 = 0 then 0
    else
      r.2.2 + totalMatchFuel a b fuel alo r.1 blo r.2.1
            + totalMatchFuel a b fuel (r.1 + r.2.2) ahi (r.2.1 + r.2.2) bhi

/-- Number of matching characters `M` used by `SequenceMatcher.ratio`. -/
def seqMatchTotal (a b : List Char) : Nat :=
  totalMatchFuel a b (a.length + b.length + 1) 0 a.length 0 b.length

/-- Python `min` on two floats (kernel-reducible form). -/
def qmin (a b : ℚ) : ℚ :=
  if a ≤ b then a else b

/-- A natural number as a rational: a direct constructor application, which
evaluates everywhere the standard cast does not. -/
def natQ (n : Nat) : ℚ :=
  ⟨Int.ofNat n, 1, one_ne_zero, Nat.coprime_one_right _⟩

/-- The rational `n / d` (`d ≠ 0` in every use), built with `mkRat` so that
concrete evaluation never hits the `@[irreducible]` field operations. -/
def q (n : Int) (d : Nat) : ℚ :=
  mkRat n d

/-- Exact rational addition (the value of Python float `+` in exact
arithmetic), in a form that evaluates. -/
def qadd (a b : ℚ) : ℚ :=
  mkRat (a.num * Int.ofNat b.den + b.num * Int.ofNat a.den) (a.den * b.den)

/-- Exact rational multiplication, in a form that evaluates. -/
def qmul (a b : ℚ) : ℚ :=
  mkRat (a.num * b.num) (a.den * b.den)

/-- Exact rational division (no use divides by zero), in a form that
evaluates. -/
def qdiv (a b : ℚ) : ℚ :=
  Rat.divInt (a.num * Int.ofNat b.den) (b.num * Int.ofNat a.den)

/-- `SequenceMatcher.ratio()`: `2*M / (len(a)+len(b))`, and 1 when both are
empty (difflib `_calculate_ratio`). -/
def ratioQ (a b : List Char) : ℚ :=
  let t := a.length + b.length
  if t = 0 then natQ 1 else qdiv (natQ (2 * seqMatchTotal a b)) (natQ t)

/-- `DeduplicationEngine._calculate_name_similarity` (src/src/deduplication.py
lines 135-159): 0 for a falsy argument; 1 when the normalizations agree;
otherwise the sequence ratio, plus 0.3 (capped at 1) on an acronym match,
times 0.7 when either normalization has length at most 3, finally capped at 1. -/
def calcSim (name1 name2 : String) : ℚ :=
  if name1 = "" ∨ name2 = "" then natQ 0
  else
    let norm1 := normalizeName name1
    let norm2 := normalizeName name2
    if norm1 = norm2 then natQ 1
    else
      let base := ratioQ norm1.toList norm2.toList
      let boosted := if isAcronymMatch norm1 norm2 then qmin (natQ 1) (qadd base (q 3 10)) else base
      let pen := if norm1.length ≤ 3 ∨ norm2.length ≤ 3 then qmul boosted (q 7 10) else boosted
      qmin (natQ 1) pen


/-! ### The relational store (src/src/storage.py `init_db` schema) -/

/-- A row of the `companies` table. -/
structure Company where
  id : Nat
  name : String
  country : Option String
  domain : Option String
  first_seen : Option String
  last_seen : Option String
deriving Repr, DecidableEq

/-- A row of the `funding_events` table. -/
structure FundingEvent where
  id : Nat
  company_id : Nat
  funding_type : Option String
  amount : Option ℚ
  date : Option String
  source : String
  raw_id : Option String
deriving Repr, DecidableEq

/-- A row of the `ingest_runs` table. -/
structure IngestRun where
  id : Nat
  source : String
  started_at : String
  finished_at : String
  status : String
  records_fetched : Nat
  records_normalized : Nat
  errors : Option String
deriving Repr, DecidableEq

/-- The persistent store.  Surrogate ids are modelled by monotone counters
(SQLite INTEGER PRIMARY KEY assignment; none of the verified properties
depend on rowid reuse after deletes). -/
structure DB where
  companies : List Company
  events : List FundingEvent
  runs : List IngestRun
  nextCompanyId : Nat
  nextEventId : Nat
  nextRunId : Nat
deriving Repr, DecidableEq

/-- The store as created by `init_db` on a fresh database file. -/
def emptyDB : DB :=
  { companies := [], events := [], runs := [], nextCompanyId := 1, nextEventId := 1, nextRunId := 1 }

/-- The `CompanyMatch` dataclass (src/src/deduplication.py lines 15-24).
The `identifiers` member is omitted: it is `{}` on every path that
constructs a match in the current source. -/
structure CompanyMatch where
  company_id : Nat
  name : String
  country : Option String
  domain : Option String
  confidence : ℚ
  match_type : String
deriving Repr, DecidableEq

/-! ### Candidate finder (`DeduplicationEngine`) -/

/-- SQLite `ORDER BY last_seen DESC` comparison: NULL sorts below every
value, so it comes last in descending order.  Returns true when `x` must sit
strictly after `y` in descending order. -/
def optStrLt (x y : Option String) : Bool :=
  match x, y with
  | none, none => false
  | none, some _ => true
  | some _, none => false
  | some a, some b => strLt a b

/-- Stable insertion for descending order on `last_seen`: the new row goes
after every already-placed row that is not strictly smaller.  SQLite leaves
the order of ties unspecified; insertion order (rowid order, which is what
SQLite produces here) is used. -/
def insertByLastSeenDesc (c : Company) : List Company → List Company
  | [] => [c]
  | d :: ds => if optStrLt d.last_seen c.last_seen then c :: d :: ds else d :: insertByLastSeenDesc c ds

/-- Sort companies by `last_seen` descending (stable). -/
def sortByLastSeenDesc (l : List Company) : List Company :=
  l.foldl (fun acc c => insertByLastSeenDesc c acc) []

/-- The `WHERE country = ?` filter of `_get_existing_companies`
(src/src/deduplication.py lines 217-235): applied only when the caller's
country is truthy (Python: `if country:`), so None and the empty string both
disable the filter. -/
def countryKeep (country : Option String) (c : Company) : Bool :=
  match country with
  | none => true
  | some v => if v = "" then true else decide (c.country = some v)

/-- `DeduplicationEngine._get_existing_companies`. -/
def getExistingCompanies (db : DB) (country : Option String) : List Company :=
  sortByLastSeenDesc (db.companies.filter (countryKeep country))

/-- The candidate built for one scanned company inside
`_find_by_name_similarity` (src/src/deduplication.py lines 110-131): None
when the similarity is below the 0.6 floor; otherwise boosted (+0.2 capped at
0.95, matchType `name_similarity_domain`) exactly when the `_normalized_domain`
values of the two names are equal, else the plain similarity with matchType
`name_similarity`. -/
def candFor (query : String) (c : Company) : Option CompanyMatch :=
  let sim := calcSim query c.name
  if q 6 10 ≤ sim then
    if normalizedDomain query = normalizedDomain c.name then
      some { company_id := c.id, name := c.name, country := c.country, domain := c.domain,
             confidence := qmin (q 95 100) (qadd sim (q 2 10)), match_type := "name_similarity_domain" }
    else
      some { company_id := c.id, name := c.name, country := c.country, domain := c.domain,
             confidence := sim, match_type := "name_similarity" }
  else none

/-- `DeduplicationEngine._find_by_name_similarity`. -/
def findByNameSimilarity (db : DB) (query : String) (country : Option String) : List CompanyMatch :=
  (getExistingCompanies db country).filterMap (candFor query)

/-- Stable insertion for `candidates.sort(key=..., reverse=True)`: Python's
sort is stable also under `reverse=True`, so a candidate goes after every
already-placed candidate with greater-or-equal confidence. -/
def insertCandDesc (c : CompanyMatch) : List CompanyMatch → List CompanyMatch
  | [] => [c]
  | d :: ds => if decide (d.confidence < c.confidence) then c :: d :: ds else d :: insertCandDesc c ds

/-- Sort candidates by confidence descending (stable). -/
def sortCandsDesc (l : List CompanyMatch) : List CompanyMatch :=
  l.foldl (fun acc c => insertCandDesc c acc) []

/-- `DeduplicationEngine.find_duplicate_candidates` (src/src/deduplication.py
lines 45-80).  The identifier-exact pass calls `_query_identifier_matches`,
which returns `[]` in the current schema (no identifier table, lines 96-101),
so its early return never fires and only the name-similarity candidates
remain, sorted by confidence descending and truncated to 10. -/
def findDuplicateCandidates (db : DB) (name : String) (country : Option String)
    (_identifiers : List (String × String)) : List CompanyMatch :=
  (sortCandsDesc (findByNameSimilarity db name country)).take 10

/-! ### Resolution and upsert (src/src/storage.py) -/

/-- `_find_company_by_identifier` (src/src/storage.py lines 141-145): the
source always returns None because the schema has no identifier storage. -/
def findCompanyByIdentifier (_db : DB) (_idType _idValue : String) : Option Nat :=
  none

/-- SQL `ifnull(domain, ?)` evaluated against a row's current domain. -/
def ifnullOpt (cur new : Option String) : Option String :=
  match cur with
  | some v => some v
  | none => new

/-- Python `row["first_seen"] or seen_date`: the stored value unless it is
NULL or the empty string (both falsy). -/
def pyOrStr (x : Option String) (dflt : String) : String :=
  match x with
  | none => dflt
  | some s => if s = "" then dflt else s

/-- `_update_company_metadata` (src/src/storage.py lines 148-173): no-op when
the company id is absent; otherwise widen the date span with `seen_date`,
overwrite name and country, and set domain only if currently NULL.  The date
span is computed from the first row returned for the id; the UPDATE itself
applies to every row with that id, using each row's own domain in `ifnull`. -/
def updateCompanyMetadata (db : DB) (cid : Nat) (name : String) (country : Option String)
    (seen : String) (domain : Option String) : DB :=
  match db.companies.find? (fun c => c.id == cid) with
  | none => db
  | some row =>
    let fs0 := pyOrStr row.first_seen seen
    let ls0 := pyOrStr row.last_seen seen
    let fs := if strLt seen fs0 then seen else fs0
    let ls := if strLt ls0 seen then seen else ls0
    { db with
      companies := db.companies.map (fun c =>
        if c.id == cid then
          { c with name := name, country := country, domain := ifnullOpt c.domain domain,
                   first_seen := some fs, last_seen := some ls }
        else c) }

/-- The INSERT branch of `upsert_company` (src/src/storage.py lines 132-138). -/
def insertCompany (db : DB) (name : String) (country : Option String) (seen : String)
    (domain : Option String) : Nat × DB :=
  (db.nextCompanyId,
   { db with
     companies := db.companies ++ [{ id := db.nextCompanyId, name := name, country := country,
                                     domain := domain, first_seen := some seen, last_seen := some seen }],
     nextCompanyId := db.nextCompanyId + 1 })

/-- `upsert_company` (src/src/storage.py lines 100-138).  The identifier loop
consults `findCompanyByIdentifier` for each truthy identifier value (always
None in the current source); then the deduplication engine is queried and the
top candidate accepted at confidence at least 0.85; otherwise a new row is
inserted. -/
def upsertCompany (db : DB) (name : String) (country : Option String) (seen : String)
    (domain : Option String) (identifiers : List (String × String)) : Nat × DB :=
  match identifiers.findSome? (fun p => if p.2 ≠ "" then findCompanyByIdentifier db p.1 p.2 else none) with
  | some cid => (cid, updateCompanyMetadata db cid name country seen domain)
  | none =>
    match findDuplicateCandidates db name country identifiers with
    | c :: _ =>
      if q 85 100 ≤ c.confidence then
        (c.company_id, updateCompanyMetadata db c.company_id name country seen domain)
      else
        insertCompany db name country seen domain
    | [] => insertCompany db name country seen domain

/-- `add_funding_event` (src/src/storage.py lines 176-190). -/
def addFundingEvent (db : DB) (cid : Nat) (ftype : Option String) (amount : Option ℚ)
    (date : String) (source : String) (rid : Option String) : Nat × DB :=
  (db.nextEventId,
   { db with
     events := db.events ++ [{ id := db.nextEventId, company_id := cid, funding_type := ftype,
                               amount := amount, date := some date, source := source, raw_id := rid }],
     nextEventId := db.nextEventId + 1 })

/-- `log_ingest_run` (src/src/storage.py lines 193-211). -/
def logIngestRun (db : DB) (source started finished status : String)
    (fetched normalized : Nat) (errors : Option String) : Nat × DB :=
  (db.nextRunId,
   { db with
     runs := db.runs ++ [{ id := db.nextRunId, source := source, started_at := started,
                           finished_at := finished, status := status, records_fetched := fetched,
                           records_normalized := normalized, errors := errors }],
     nextRunId := db.nextRunId + 1 })

/-! ### Ingestion pipeline (src/src/pipeline.py `run_one_source`)

The source wraps the per-event write loop in `with get_conn() as conn:`.
`get_conn` (src/src/storage.py lines 17-26) runs `conn.commit(); conn.close()`
in its `finally` clause, i.e. on every exit path including an exception
propagating out of the loop.  Consequently the writes performed before a
mid-run failure are committed, not rolled back; the model below threads the
store state reached at the failure point straight through to the run-ledger
write.  A store-level failure raised by the mutation for one event (the
environment, e.g. `sqlite3.OperationalError`) is injected via `store_fail`. -/

/-- One canonical event as consumed by the `run_one_source` loop, plus the
environment flag `store_fail`: `some msg` means the store mutation for this
event raises an exception rendered as `msg` by `str(e)`. -/
structure PipelineEvent where
  company_name : String
  funding_type : Option String
  funding_amount : Option ℚ
  funding_date : Option String
  source : Option String
  country : Option String
  domain : Option String
  raw_id : Option String
  store_fail : Option String
deriving Repr, DecidableEq

/-- Python `str.strip()` on a String. -/
def pyStrip (s : String) : String :=
  String.mk (charsStrip s.toList)

/-- The event loop of `run_one_source` (src/src/pipeline.py lines 32-49):
skip events with an empty stripped name, upsert the company and append the
funding event otherwise, counting `normalized`.  On the first store failure
the loop aborts with the exception message; the state already reached is kept
(committed by `get_conn`).  `date` is `str(ev.get("funding_date"))`, so a
missing date becomes the string `"None"`. -/
def processEvents (runSource : String) : DB → List PipelineEvent → Nat → DB × Nat × Option String
  | db, [], n => (db, n, none)
  | db, ev :: rest, n =>
    let name := pyStrip ev.company_name
    if name = "" then processEvents runSource db rest n
    else
      match ev.store_fail with
      | some msg => (db, n, some msg)
      | none =>
        let date := match ev.funding_date with
          | some s => s
          | none => "None"
        let r := upsertCompany db name ev.country date ev.domain []
        let db2 := (addFundingEvent r.2 r.1 ev.funding_type ev.funding_amount date
          (ev.source.getD runSource) ev.raw_id).2
        processEvents runSource db2 rest (n + 1)

/-- `run_one_source` (src/src/pipeline.py lines 20-72) for a run whose
connector already yielded `events`: process the events, then in the `finally`
block log one `ingest_runs` row whose status is `failed` exactly when an
exception was caught, with the captured error message.  The best-effort
failure email is an excluded external collaborator. -/
def runOneSource (db : DB) (events : List PipelineEvent) (source started finished : String) : DB :=
  let out := processEvents source db events 0
  let status := match out.2.2 with
    | none => "success"
    | some _ => "failed"
  (logIngestRun out.1 source started finished status events.length out.2.1 out.2.2).2

/-! ### Merge operator (src/src/deduplication.py `merge_duplicate_companies`)

The source opens an explicit transaction (`BEGIN`), re-points funding events
one merge id at a time, runs the date-span UPDATE, deletes the merged rows,
and commits; `except` runs `conn.rollback()` and returns False.  The model
keeps the committed state and the in-transaction state separate: mutation
steps act on the transaction state, the commit publishes it, and a failure at
any step (injected by the environment predicate `fails`) returns the
committed state unchanged.  The date-span UPDATE of the source reads its
`MIN`/`MAX` second argument from a scalar subquery `SELECT ... WHERE id = ?`
bound to the *kept* id, i.e. the row being updated compares its span against
itself. -/

/-- SQLite scalar `MIN(x, y)` on TEXT: NULL when either operand is NULL. -/
def sqlMin2 (x y : Option String) : Option String :=
  match x, y with
  | some a, some b => some (if strLt a b then a else b)
  | _, _ => none

/-- SQLite scalar `MAX(x, y)` on TEXT: NULL when either operand is NULL. -/
def sqlMax2 (x y : Option String) : Option String :=
  match x, y with
  | some a, some b => some (if strLt a b then b else a)
  | _, _ => none

/-- One `UPDATE funding_events SET company_id = keep WHERE company_id = m`. -/
def repointStep (keep m : Nat) (db : DB) : DB :=
  { db with events := db.events.map (fun e => if e.company_id == m then { e with company_id := keep } else e) }

/-- The date-span UPDATE of `merge_duplicate_companies`
(src/src/deduplication.py lines 256-265), transliterated: the subquery selects
the kept row's own `first_seen`/`last_seen`. -/
def updateDatesStep (keep : Nat) (db : DB) : DB :=
  let sub := db.companies.find? (fun c => c.id == keep)
  let subFs := sub.bind (fun c => c.first_seen)
  let subLs := sub.bind (fun c => c.last_seen)
  { db with
    companies := db.companies.map (fun c =>
      if c.id == keep then
        { c with first_seen := sqlMin2 c.first_seen subFs, last_seen := sqlMax2 c.last_seen subLs }
      else c) }

/-- `DELETE FROM companies WHERE id IN (merge_ids)`. -/
def deleteStep (mergeIds : List Nat) (db : DB) : DB :=
  { db with companies := db.companies.filter (fun c => !(mergeIds.contains c.id)) }

/-- The statements executed inside the merge transaction, in source order. -/
inductive MergeStep where
  | begin_tx
  | repoint (m : Nat)
  | updateDates
  | deleteMerged
  | commit_tx
deriving Repr, DecidableEq

/-- The statement sequence of one `merge_duplicate_companies` call. -/
def mergeSteps (mergeIds : List Nat) : List MergeStep :=
  MergeStep.begin_tx :: (mergeIds.map MergeStep.repoint ++ [MergeStep.updateDates, MergeStep.deleteMerged, MergeStep.commit_tx])

/-- Execute the transaction statements: `committed` is the durable state,
`tx` the in-transaction state.  A failing statement (environment predicate
`fails`, e.g. a lost database connection) takes the `except` path:
`conn.rollback(); return False`, leaving the committed state untouched.
An empty `merge_ids` list makes the DELETE a SQLite syntax error
(`IN ()`), which also takes the `except` path. -/
def mergeLoop (keep : Nat) (mergeIds : List Nat) (fails : MergeStep → Bool) :
    List MergeStep → DB → DB → Bool × DB
  | [], committed, _tx => (true, committed)
  | s :: rest, committed, tx =>
    if fails s then (false, committed)
    else
      match s with
      | .begin_tx => mergeLoop keep mergeIds fails rest committed committed
      | .repoint m => mergeLoop keep mergeIds fails rest committed (repointStep keep m tx)
      | .updateDates => mergeLoop keep mergeIds fails rest committed (updateDatesStep keep tx)
      | .deleteMerged =>
        if mergeIds.isEmpty then (false, committed)
        else mergeLoop keep mergeIds fails rest committed (deleteStep mergeIds tx)
      | .commit_tx => mergeLoop keep mergeIds fails rest tx tx

/-- `DeduplicationEngine.merge_duplicate_companies` (src/src/deduplication.py
lines 237-280): True with the merged state on success, False with the
unchanged state when any statement fails. -/
def mergeDuplicateCompanies (db : DB) (keep : Nat) (mergeIds : List Nat)
    (fails : MergeStep → Bool) : Bool × DB :=
  mergeLoop keep mergeIds fails (mergeSteps mergeIds) db db

/-! ### Canonicalizer amounts (src/src/schema.py `canonical_event`) and the
SBIR mapping amount extraction (src/src/mappings/sbir.py `extract_award_amount`) -/

/-- A Python value as it can reach the `funding_amount` parameter. -/
inductive PyVal where
  | vnone
  | num (q : ℚ)
  | str (s : String)
deriving Repr, DecidableEq

/-- Outcome of a Python expression that can raise: the computed value, or the
exception message. -/
inductive FloatResult where
  | ok (v : Option ℚ)
  | error (msg : String)
deriving Repr, DecidableEq

/-- Digits to the natural number they denote. -/
def digitsToNat (l : List Char) : Nat :=
  l.foldl (fun n c => 10 * n + (c.toNat - '0'.toNat)) 0

/-- All characters are ASCII digits. -/
def allDigits (l : List Char) : Bool :=
  l.all Char.isDigit

/-- Split at the first character satisfying `p`: the part before it, and the
part after it when it occurs. -/
def breakOn (p : Char → Bool) (l : List Char) : List Char × Option (List Char) :=
  let pre := l.takeWhile (fun c => !(p c))
  match l.dropWhile (fun c => !(p c)) with
  | [] => (pre, none)
  | _ :: rest => (pre, some rest)

/-- Unsigned decimal mantissa: digits with at most one point, at least one
digit overall. -/
def parseUnsignedDec (l : List Char) : Option ℚ :=
  let r := breakOn (fun c => c = '.') l
  match r.2 with
  | none => if r.1 ≠ [] && allDigits r.1 then some (natQ (digitsToNat r.1)) else none
  | some fp =>
    if allDigits r.1 && allDigits fp && (r.1 ≠ [] || fp ≠ []) then
      some (qadd (natQ (digitsToNat r.1)) (q (Int.ofNat (digitsToNat fp)) (10 ^ fp.length)))
    else none

/-- CPython `float(s)` on finite decimal literals: optional surrounding
whitespace, optional sign, decimal mantissa, optional exponent.  The
`inf`/`nan` and digit-underscore forms CPython also accepts are outside the
inputs considered here; every input this development evaluates on is either a
plain decimal literal (accepted identically) or contains a character such as
`$` or `,` (rejected identically). -/
def parsePyFloat (s : String) : Option ℚ :=
  let t := charsStrip s.toList
  let st : Bool × List Char :=
    match t with
    | '+' :: r => (false, r)
    | '-' :: r => (true, r)
    | _ => (false, t)
  let me := breakOn (fun c => c = 'e' || c = 'E') st.2
  match parseUnsignedDec me.1, me.2 with
  | some m, none => some (if st.1 then Rat.neg m else m)
  | some m, some ex =>
    let es : Bool × List Char :=
      match ex with
      | '+' :: r => (false, r)
      | '-' :: r => (true, r)
      | _ => (false, ex)
    if es.2 ≠ [] && allDigits es.2 then
      let e := digitsToNat es.2
      let mm := if st.1 then Rat.neg m else m
      some (if es.1 then qdiv mm (natQ (10 ^ e)) else qmul mm (natQ (10 ^ e)))
    else none
  | none, _ => none

/-- The `funding_amount` field computation of `canonical_event`
(src/src/schema.py line 54): `float(funding_amount) if funding_amount is not
None else None`.  `FloatResult.error` models the exception `float` raises on
a non-numeric string (ValueError) — there is no currency-symbol or
thousands-separator stripping on this path. -/
def canonicalEventAmount : PyVal → FloatResult
  | .vnone => .ok none
  | .num q => .ok (some q)
  | .str s =>
    match parsePyFloat s with
    | some q => .ok (some q)
    | none => .error "could not convert string to float"

/-- Python `amount.replace("$", "").replace(",", "").replace(" ", "")` from
`extract_award_amount`. -/
def cleanAmountStr (s : String) : String :=
  String.mk (s.toList.filter (fun c => c ≠ '$' && c ≠ ',' && c ≠ ' '))

/-- `extract_award_amount` (src/src/mappings/sbir.py lines 96-117) applied to
the values of the candidate amount fields in source order: skip missing
values, strip currency symbols/thousands separators from strings and
float-parse them (continuing on ValueError), accept numeric values directly,
and fall through to None. -/
def extractAwardAmount : List PyVal → Option ℚ
  | [] => none
  | .vnone :: rest => extractAwardAmount rest
  | .str s :: rest =>
    match parsePyFloat (cleanAmountStr s) with
    | some q => some q
    | none => extractAwardAmount rest
  | .num q :: _ => some q

/-! ### Concrete fixtures used by witnesses and counterexamples -/

/-- One observation step of the resolution engine, as iterated by the
idempotence property: `upsert_company` with the observation's fields (the
pipeline passes no identifiers). -/
def upsertStep (name : String) (country : Option String) (seen : String)
    (domain : Option String) (db : DB) : DB :=
  (upsertCompany db name country seen domain []).2

/-- The company row created by the first resolution of an observation
`(name, country, d, domain)` against an empty store. -/
def obsRow (name : String) (country domain : Option String) (d : String) : Company :=
  { id := 1, name := name, country := country, domain := domain,
    first_seen := some d, last_seen := some d }

/-- The store after the first resolution of an observation against an empty
store. -/
def obsDB (name : String) (country domain : Option String) (d : String) : DB :=
  { emptyDB with companies := [obsRow name country domain d], nextCompanyId := 2 }

/-- One company row under its originally observed spelling. -/
def acmeRow : Company :=
  { id := 1, name := "Acme Robotics, Inc.", country := some "US", domain := none,
    first_seen := some "2024-01-01", last_seen := some "2024-01-01" }

/-- A store holding one company under its originally observed spelling. -/
def dbAcme : DB :=
  { emptyDB with companies := [acmeRow], nextCompanyId := 2 }

/-- A store with a kept company (narrow date span) and a duplicate to merge
(wider date span) owning one funding event. -/
def dbMergePair : DB :=
  { emptyDB with
    companies := [{ id := 1, name := "Keep Co", country := some "US", domain := none,
                    first_seen := some "2024-06-01", last_seen := some "2024-06-01" },
                  { id := 2, name := "Merge Co", country := some "US", domain := none,
                    first_seen := some "2024-01-01", last_seen := some "2024-12-31" }],
    events := [{ id := 1, company_id := 2, funding_type := none, amount := none,
                 date := some "2024-03-01", source := "sec", raw_id := none }],
    nextCompanyId := 3, nextEventId := 2 }

/-- A store holding one company whose full name collapses to a string of
length at most 3. -/
def dbShortName : DB :=
  { emptyDB with
    companies := [{ id := 1, name := "AB", country := none, domain := none,
                    first_seen := some "2024-01-01", last_seen := some "2024-01-01" }],
    nextCompanyId := 2 }

/-- A store holding one company with a domain already set. -/
def dbWithDomain : DB :=
  { emptyDB with
    companies := [{ id := 1, name := "Acme Robotics", country := some "US", domain := some "acme.com",
                    first_seen := some "2024-01-01", last_seen := some "2024-01-01" }],
    nextCompanyId := 2 }

/-- An event whose store mutation succeeds. -/
def evOk : PipelineEvent :=
  { company_name := "Acme", funding_type := some "US_CONTRACT", funding_amount := some (natQ 100000),
    funding_date := some "2024-01-01", source := none, country := some "US", domain := none,
    raw_id := some "AW1", store_fail := none }

/-- An event whose store mutation raises a store-level error. -/
def evBad : PipelineEvent :=
  { company_name := "Beta LLC", funding_type := none, funding_amount := none,
    funding_date := some "2024-02-01", source := none, country := some "US", domain := none,
    raw_id := none, store_fail := some "database is locked" }

/-- The store state after ingesting `evOk` into an empty store: the company
row and its funding event, committed. -/
def dbAfterOk : DB :=
  { companies := [{ id := 1, name := "Acme", country := some "US", domain := none,
                    first_seen := some "2024-01-01", last_seen := some "2024-01-01" }],
    events := [{ id := 1, company_id := 1, funding_type := some "US_CONTRACT",
                 amount := some (natQ 100000), date := some "2024-01-01",
                 source := "usaspending", raw_id := some "AW1" }],
    runs := [], nextCompanyId := 2, nextEventId := 2, nextRunId := 1 }

/-! ### Claim theorems -/

/-- Characterization of the row a metadata update produces.  When position
`i` holds a row carrying the updated id, after `updateCompanyMetadata` that
position holds the same row with name and country overwritten, domain
backfilled only if previously NULL, and some widened date span. -/
theorem updateCompanyMetadata_get? (db : DB) (cid : Nat) (name : String)
    (country : Option String) (seen : String) (nd : Option String)
    (i : Nat) (c : Company)
    (hc : db.companies.get? i = some c) (hid : c.id = cid) :
    ∃ fs ls,
      (updateCompanyMetadata db cid name country seen nd).companies.get? i =
        some { c with name := name, country := country, domain := ifnullOpt c.domain nd,
                      first_seen := some fs, last_seen := some ls } := by
  unfold updateCompanyMetadata
  cases hfind : db.companies.find? (fun x => x.id == cid) with
  | none =>
    exfalso
    have hmem : c ∈ db.companies := List.get?_mem hc
    have := List.find?_eq_none.mp hfind c hmem
    simp [hid] at this
  | some row =>
    refine ⟨if strLt seen (pyOrStr row.first_seen seen) then seen else pyOrStr row.first_seen seen,
            if strLt (pyOrStr row.last_seen seen) seen then seen else pyOrStr row.last_seen seen, ?_⟩
    simp only [List.get?_map, hc, Option.map_some']
    simp [hid]

/-- C8: domain is first-writer-wins.  A row whose domain is already non-null
keeps it unchanged through any later metadata update, in particular one that
supplies a different non-null domain. -/
theorem c8_domain_first_writer_wins (db : DB) (cid : Nat) (name : String)
    (country : Option String) (seen : String)
    (i : Nat) (c c2 : Company) (d0 d1 : String)
    (hc : db.companies.get? i = some c)
    (hc2 : (updateCompanyMetadata db cid name country seen (some d1)).companies.get? i = some c2)
    (hdom : c.domain = some d0) (_hne : d1 ≠ d0) :
    c2.domain = some d0 := by
  unfold updateCompanyMetadata at hc2
  cases hfind : db.companies.find? (fun x => x.id == cid) with
  | none =>
    rw [hfind] at hc2
    rw [hc] at hc2
    cases hc2
    exact hdom
  | some row =>
    rw [hfind] at hc2
    simp only [List.get?_map, hc, Option.map_some'] at hc2
    cases hc2
    by_cases h : c.id == cid <;> simp [h, ifnullOpt, hdom]

/-- C8 witness: a concrete update carrying domain `beta.com` leaves the
stored `acme.com` untouched. -/
theorem c8_domain_first_writer_wins_witness :
    ∃ c2 : Company,
      (updateCompanyMetadata dbWithDomain 1 "Acme Robotics" (some "US") "2024-06-01"
          (some "beta.com")).companies.get? 0 = some c2 ∧ c2.domain = some "acme.com" :=
  ⟨_, rfl, c8_domain_first_writer_wins dbWithDomain 1 "Acme Robotics" (some "US") "2024-06-01"
    0 _ _ "acme.com" "beta.com" rfl rfl rfl (by decide)⟩

/-- C10: country is last-writer-wins.  When an observation resolves to an
existing company, the metadata update overwrites the stored country with the
observation's country unconditionally — including overwriting a non-null
country with null; there is no first-writer-wins protection as for domain. -/
theorem c10_country_last_writer_wins (db : DB) (cid : Nat) (name : String)
    (country : Option String) (seen : String) (nd : Option String)
    (i : Nat) (c c2 : Company)
    (hc : db.companies.get? i = some c) (hid : c.id = cid)
    (hc2 : (updateCompanyMetadata db cid name country seen nd).companies.get? i = some c2) :
    c2.country = country := by
  obtain ⟨fs, ls, h⟩ := updateCompanyMetadata_get? db cid name country seen nd i c hc hid
  rw [h] at hc2
  cases hc2
  rfl

/-- C10 witness: a concrete update supplying no country replaces the stored
`US` with null. -/
theorem c10_country_last_writer_wins_witness :
    ∃ c2 : Company,
      (updateCompanyMetadata dbWithDomain 1 "Acme Robotics" none "2024-06-01" none).companies.get? 0 =
        some c2 ∧ c2.country = none :=
  ⟨_, rfl, c10_country_last_writer_wins dbWithDomain 1 "Acme Robotics" none "2024-06-01" none
    0 _ _ rfl rfl rfl⟩

/-- C4 (amended): the metadata update overwrites the stored display name with
the latest observed spelling in every resolution case — the fuzzy-match case
included.  The claimed asymmetry does not exist: both the (structurally dead)
identifier-exact branch and the fuzzy branch call the same
`_update_company_metadata`, whose UPDATE sets `name = ?` unconditionally. -/
theorem c4_metadata_update_overwrites_name (db : DB) (cid : Nat) (name : String)
    (country : Option String) (seen : String) (nd : Option String)
    (i : Nat) (c c2 : Company)
    (hc : db.companies.get? i = some c) (hid : c.id = cid)
    (hc2 : (updateCompanyMetadata db cid name country seen nd).companies.get? i = some c2) :
    c2.name = name := by
  obtain ⟨fs, ls, h⟩ := updateCompanyMetadata_get? db cid name country seen nd i c hc hid
  rw [h] at hc2
  cases hc2
  rfl

/-- C4 witness: a concrete metadata update stores the new spelling. -/
theorem c4_metadata_update_overwrites_name_witness :
    ∃ c2 : Company,
      (updateCompanyMetadata dbAcme 1 "Acme Robotics Inc" (some "US") "2024-06-01" none).companies.get? 0 =
        some c2 ∧ c2.name = "Acme Robotics Inc" :=
  ⟨_, rfl, c4_metadata_update_overwrites_name dbAcme 1 "Acme Robotics Inc" (some "US") "2024-06-01" none
    0 _ _ rfl rfl rfl⟩

/-- C4 counterexample: an observation that resolves by fuzzy name match
(`Acme Robotics Inc` against stored `Acme Robotics, Inc.`, normalized
similarity 1.0, boosted-capped confidence 0.95 at or above the 0.85
auto-accept threshold) overwrites the stored name with the new spelling —
the claim asserts the name is preserved unchanged in the fuzzy case. -/
theorem c4_fuzzy_name_overwrite_counterexample :
    (upsertCompany dbAcme "Acme Robotics Inc" (some "US") "2024-06-01" none []).1 = 1 ∧
    (upsertCompany dbAcme "Acme Robotics Inc" (some "US") "2024-06-01" none []).2.companies.map
        (fun c => c.name) = ["Acme Robotics Inc"] ∧
    dbAcme.companies.map (fun c => c.name) = ["Acme Robotics, Inc."] := by
  refine ⟨by decide, by decide, by decide⟩

/-- C2 (code bug): the merge succeeds, re-points the funding event and
deletes the merged company, but the kept company's date span is unchanged at
2024-06-01/2024-06-01 even though the merged company's original span was
2024-01-01..2024-12-31 — the date-span UPDATE compares the kept row's span
against itself (its scalar subqueries select `WHERE id = keep_id`), so the
required min/max across the merged set is never computed. -/
theorem c2_merge_date_span_bug :
    (mergeDuplicateCompanies dbMergePair 1 [2] (fun _ => false)).1 = true ∧
    (mergeDuplicateCompanies dbMergePair 1 [2] (fun _ => false)).2.events.map
        (fun e => (e.id, e.company_id)) = [(1, 1)] ∧
    (mergeDuplicateCompanies dbMergePair 1 [2] (fun _ => false)).2.companies.map
        (fun c => (c.id, c.first_seen, c.last_seen)) =
      [(1, some "2024-06-01", some "2024-06-01")] ∧
    dbMergePair.companies.map (fun c => (c.id, c.first_seen, c.last_seen)) =
      [(1, some "2024-06-01", some "2024-06-01"), (2, some "2024-01-01", some "2024-12-31")] := by
  refine ⟨by decide, by decide, by decide, by decide⟩

/-- C5 counterexample: the canonicalizer's amount computation is not total
and does not strip currency formatting — on the string of the spec's own
scenario it raises ValueError (modelled as `.error`) instead of producing
1250000.0, and an unparsable string also raises instead of degrading to
null. -/
theorem c5_amount_totality_counterexample :
    canonicalEventAmount (.str "$1,250,000.00") = .error "could not convert string to float" ∧
    canonicalEventAmount (.str "not a number") = .error "could not convert string to float" := by
  refine ⟨by decide, by decide⟩

/-- C5 (amended): `canonical_event` passes None through and accepts numeric
amounts directly, and float-parses plain decimal strings, but raises on
currency-formatted strings; the stripping of `$`/`,` that turns
`"$1,250,000.00"` into 1250000.0 lives in the source-specific mapping helper
`extract_award_amount`, which also degrades unparsable values to null. -/
theorem c5_amount_semantics :
    canonicalEventAmount .vnone = .ok none ∧
    (∀ v : ℚ, canonicalEventAmount (.num v) = .ok (some v)) ∧
    canonicalEventAmount (.str "1250000.00") = .ok (some (natQ 1250000)) ∧
    extractAwardAmount [.str "$1,250,000.00"] = some (natQ 1250000) ∧
    extractAwardAmount [.str "not a number"] = none := by
  refine ⟨rfl, fun v => rfl, by decide, by decide, by decide⟩

/-- C5 witness: the numeric pass-through case at a concrete rational. -/
theorem c5_amount_semantics_witness :
    canonicalEventAmount (.num (q 5 2)) = .ok (some (q 5 2)) :=
  c5_amount_semantics.2.1 (q 5 2)

/-- The `_normalized_domain` value is determined by the collapse length alone
(an empty name also has an empty collapse). -/
theorem normalizedDomain_eq (s : String) :
    normalizedDomain s =
      if 3 < (collapseAlnum s).length then some (collapseAlnum s) else none := by
  by_cases h : s = ""
  · subst h
    rfl
  · simp [normalizedDomain, h]

/-- C9 (amended): in the name-similarity pass, a company whose similarity
passes the 0.6 floor yields the boosted candidate (confidence
min(0.95, sim + 0.2), matchType `name_similarity_domain`) exactly when the
`_normalized_domain` values of the two names are equal — which holds when the
alphanumeric-only lowercase collapses coincide with length above 3, but also
when both collapses have length at most 3 (both sides degrade to None and
None equals None); only in the remaining cases does the candidate keep
matchType `name_similarity` with the unboosted score.  (When the score was
1.0, the boosted confidence is capped to 0.95, i.e. lowered.) -/
theorem c9_domain_boost_condition (qs : String) (c : Company)
    (h : q 6 10 ≤ calcSim qs c.name) :
    candFor qs c = some { company_id := c.id, name := c.name, country := c.country, domain := c.domain,
                          confidence := if normalizedDomain qs = normalizedDomain c.name
                            then qmin (q 95 100) (qadd (calcSim qs c.name) (q 2 10))
                            else calcSim qs c.name,
                          match_type := if normalizedDomain qs = normalizedDomain c.name
                            then "name_similarity_domain" else "name_similarity" } ∧
    (normalizedDomain qs = normalizedDomain c.name ↔
      ((collapseAlnum qs = collapseAlnum c.name ∧ 3 < (collapseAlnum qs).length) ∨
       ((collapseAlnum qs).length ≤ 3 ∧ (collapseAlnum c.name).length ≤ 3))) := by
  constructor
  · by_cases hd : normalizedDomain qs = normalizedDomain c.name <;>
      simp [candFor, h, hd]
  · rw [normalizedDomain_eq qs, normalizedDomain_eq c.name]
    by_cases h1 : 3 < (collapseAlnum qs).length
    · by_cases h2 : 3 < (collapseAlnum c.name).length
      · rw [if_pos h1, if_pos h2]
        simp only [Option.some.injEq]
        constructor
        · intro he
          exact Or.inl ⟨he, h1⟩
        · rintro (⟨he, _⟩ | ⟨ha, _⟩)
          · exact he
          · omega
      · rw [if_pos h1, if_neg h2]
        constructor
        · intro he
          exact absurd he (by simp)
        · rintro (⟨he, _⟩ | ⟨ha, _⟩)
          · exact absurd (he ▸ h1) h2
          · omega
    · by_cases h2 : 3 < (collapseAlnum c.name).length
      · rw [if_neg h1, if_pos h2]
        constructor
        · intro he
          exact absurd he (by simp)
        · rintro (⟨he, hl⟩ | ⟨_, hb⟩)
          · exact absurd (he ▸ hl) h1
          · omega
      · rw [if_neg h1, if_neg h2]
        constructor
        · intro _
          exact Or.inr ⟨by omega, by omega⟩
        · intro _
          rfl

/-- C9 witness: the boosted case at the spec's own scenario names. -/
theorem c9_domain_boost_condition_witness :
    q 6 10 ≤ calcSim "Acme Robotics Inc" acmeRow.name ∧
    (candFor "Acme Robotics Inc" acmeRow =
        some { company_id := acmeRow.id, name := acmeRow.name, country := acmeRow.country,
               domain := acmeRow.domain,
               confidence := if normalizedDomain "Acme Robotics Inc" = normalizedDomain acmeRow.name
                 then qmin (q 95 100) (qadd (calcSim "Acme Robotics Inc" acmeRow.name) (q 2 10))
                 else calcSim "Acme Robotics Inc" acmeRow.name,
               match_type := if normalizedDomain "Acme Robotics Inc" = normalizedDomain acmeRow.name
                 then "name_similarity_domain" else "name_similarity" } ∧
      (normalizedDomain "Acme Robotics Inc" = normalizedDomain acmeRow.name ↔
        ((collapseAlnum "Acme Robotics Inc" = collapseAlnum acmeRow.name ∧
            3 < (collapseAlnum "Acme Robotics Inc").length) ∨
         ((collapseAlnum "Acme Robotics Inc").length ≤ 3 ∧
            (collapseAlnum acmeRow.name).length ≤ 3)))) :=
  ⟨by decide, c9_domain_boost_condition "Acme Robotics Inc" acmeRow (by decide)⟩

/-- A failing statement inside a step list that does not contain the commit
makes the merge transaction return failure with the committed state. -/
theorem mergeLoop_fail_of_any (keep : Nat) (mergeIds : List Nat) (fails : MergeStep → Bool) :
    ∀ (steps rest : List MergeStep) (committed tx : DB),
      MergeStep.commit_tx ∉ steps → steps.any fails = true →
      mergeLoop keep mergeIds fails (steps ++ rest) committed tx = (false, committed) := by
  intro steps
  induction steps with
  | nil =>
    intro rest committed tx _ hany
    simp at hany
  | cons s ss ih =>
    intro rest committed tx hnc hany
    have hncs : MergeStep.commit_tx ∉ ss := fun hm => hnc (List.mem_cons_of_mem _ hm)
    by_cases hf : fails s
    · cases s <;> simp [mergeLoop, hf]
    · have hany2 : ss.any fails = true := by
        simp [List.any_cons, hf] at hany
        simpa using hany
      cases s with
      | begin_tx => simpa [mergeLoop, hf] using ih rest committed committed hncs hany2
      | repoint m => simpa [mergeLoop, hf] using ih rest committed (repointStep keep m tx) hncs hany2
      | updateDates => simpa [mergeLoop, hf] using ih rest committed (updateDatesStep keep tx) hncs hany2
      | deleteMerged =>
        by_cases he : mergeIds.isEmpty
        · simp [mergeLoop, hf, he]
        · simpa [mergeLoop, hf, he] using ih rest committed (deleteStep mergeIds tx) hncs hany2
      | commit_tx => exact absurd (List.mem_cons_self _ _) (fun hm => hnc hm)

/-- Running a commit-free, failure-free prefix of the transaction only
transforms the in-transaction state: the committed state is untouched (or the
deleteMerged syntax-error path fails with the committed state). -/
theorem mergeLoop_no_fail_prefix (keep : Nat) (mergeIds : List Nat) (fails : MergeStep → Bool) :
    ∀ (steps rest : List MergeStep) (committed tx : DB),
      MergeStep.commit_tx ∉ steps → steps.any fails = false →
      (mergeLoop keep mergeIds fails (steps ++ rest) committed tx = (false, committed) ∨
       ∃ tx2, mergeLoop keep mergeIds fails (steps ++ rest) committed tx =
         mergeLoop keep mergeIds fails rest committed tx2) := by
  intro steps
  induction steps with
  | nil =>
    intro rest committed tx _ _
    exact Or.inr ⟨tx, rfl⟩
  | cons s ss ih =>
    intro rest committed tx hnc hany
    have hncs : MergeStep.commit_tx ∉ ss := fun hm => hnc (List.mem_cons_of_mem _ hm)
    have hall := List.any_eq_false.mp hany
    have hf : fails s = false :=
      Bool.eq_false_iff.mpr (hall s (List.mem_cons_self _ _))
    have hany2 : ss.any fails = false :=
      List.any_eq_false.mpr (fun x hx => hall x (List.mem_cons_of_mem _ hx))
    cases s with
    | begin_tx => simpa [mergeLoop, hf] using ih rest committed committed hncs hany2
    | repoint m => simpa [mergeLoop, hf] using ih rest committed (repointStep keep m tx) hncs hany2
    | updateDates => simpa [mergeLoop, hf] using ih rest committed (updateDatesStep keep tx) hncs hany2
    | deleteMerged =>
      by_cases he : mergeIds.isEmpty
      · simp [mergeLoop, hf, he]
      · simpa [mergeLoop, hf, he] using ih rest committed (deleteStep mergeIds tx) hncs hany2
    | commit_tx => exact absurd (List.mem_cons_self _ _) (fun hm => hnc hm)

/-- C7: merge failure atomicity.  Whenever any statement of the merge
transaction fails (the environment predicate marks it), the operation reports
failure (returns False) and the store state is exactly the state before the
call: no partial re-pointing and no deleted company survives, because the
`except` branch rolls the transaction back. -/
theorem c7_merge_failure_rolls_back (db : DB) (keep : Nat) (mergeIds : List Nat)
    (fails : MergeStep → Bool) (h : (mergeSteps mergeIds).any fails = true) :
    mergeDuplicateCompanies db keep mergeIds fails = (false, db) := by
  have hsplit : mergeSteps mergeIds =
      (MergeStep.begin_tx :: (mergeIds.map MergeStep.repoint ++
        [MergeStep.updateDates, MergeStep.deleteMerged])) ++ [MergeStep.commit_tx] := by
    simp [mergeSteps]
  have hnc : MergeStep.commit_tx ∉
      MergeStep.begin_tx :: (mergeIds.map MergeStep.repoint ++
        [MergeStep.updateDates, MergeStep.deleteMerged]) := by
    simp
  by_cases hpre : (MergeStep.begin_tx :: (mergeIds.map MergeStep.repoint ++
      [MergeStep.updateDates, MergeStep.deleteMerged])).any fails = true
  · unfold mergeDuplicateCompanies
    rw [hsplit]
    exact mergeLoop_fail_of_any keep mergeIds fails _ _ db db hnc hpre
  · have hpre2 : (MergeStep.begin_tx :: (mergeIds.map MergeStep.repoint ++
        [MergeStep.updateDates, MergeStep.deleteMerged])).any fails = false :=
      Bool.eq_false_iff.mpr hpre
    have hcommit : fails MergeStep.commit_tx = true := by
      rw [hsplit] at h
      rw [List.any_append] at h
      rcases Bool.or_eq_true_iff.mp h with h1 | h2
      · exact absurd h1 hpre
      · simpa using h2
    unfold mergeDuplicateCompanies
    rw [hsplit]
    rcases mergeLoop_no_fail_prefix keep mergeIds fails _ [MergeStep.commit_tx] db db hnc hpre2 with
      hdone | ⟨tx2, he⟩
    · exact hdone
    · rw [he]
      simp [mergeLoop, hcommit]

/-- C7 witness: a merge whose DELETE statement fails reports failure and
leaves the two-company store bit-for-bit unchanged. -/
theorem c7_merge_failure_rolls_back_witness :
    (mergeSteps [2]).any (fun s => s == MergeStep.deleteMerged) = true ∧
    mergeDuplicateCompanies dbMergePair 1 [2] (fun s => s == MergeStep.deleteMerged) =
      (false, dbMergePair) :=
  ⟨by decide, c7_merge_failure_rolls_back dbMergePair 1 [2] _ (by decide)⟩

/-- The acronym-match test is symmetric in its two arguments. -/
theorem isAcronymMatch_symm (x y : String) : isAcronymMatch x y = isAcronymMatch y x := by
  have hiff : (isAcronymMatch x y = true) ↔ (isAcronymMatch y x = true) := by
    simp only [isAcronymMatch, Bool.or_eq_true, Bool.and_eq_true, decide_eq_true_eq]
    constructor
    · rintro (⟨hl, he⟩ | hr)
      · exact Or.inl ⟨he ▸ hl, he.symm⟩
      · exact Or.inr (Or.symm hr)
    · rintro (⟨hl, he⟩ | hr)
      · exact Or.inl ⟨he ▸ hl, he.symm⟩
      · exact Or.inr (Or.symm hr)
  cases hx : isAcronymMatch x y <;> cases hy : isAcronymMatch y x <;> simp_all

/-- C6 (amended): every stage of the similarity score is symmetric except the
underlying `SequenceMatcher.ratio`, whose greedy block decomposition is
order-dependent; whenever the ratio agrees on the normalized pair in both
orders, the score is symmetric.  (Unconditional symmetry is refuted by the
counterexample.) -/
theorem c6_score_symmetry_conditional (a b : String)
    (h : ratioQ (normalizeName a).toList (normalizeName b).toList =
         ratioQ (normalizeName b).toList (normalizeName a).toList) :
    calcSim a b = calcSim b a := by
  simp only [calcSim]
  by_cases h1 : a = "" ∨ b = ""
  · rw [if_pos h1, if_pos (show b = "" ∨ a = "" from Or.symm h1)]
  · rw [if_neg h1]
    rw [if_neg (show ¬(b = "" ∨ a = "") from fun hc => h1 (Or.symm hc))]
    by_cases h2 : normalizeName a = normalizeName b
    · rw [if_pos h2, if_pos (show normalizeName b = normalizeName a from h2.symm)]
    · rw [if_neg h2]
      rw [if_neg (show ¬normalizeName b = normalizeName a from fun hc => h2 hc.symm)]
      rw [h, isAcronymMatch_symm (normalizeName a) (normalizeName b)]
      by_cases h3 : (normalizeName a).length ≤ 3 ∨ (normalizeName b).length ≤ 3
      · rw [if_pos h3,
          if_pos (show (normalizeName b).length ≤ 3 ∨ (normalizeName a).length ≤ 3 from Or.symm h3)]
      · rw [if_neg h3]
        rw [if_neg (show ¬((normalizeName b).length ≤ 3 ∨ (normalizeName a).length ≤ 3) from
          fun hc => h3 (Or.symm hc))]

/-- C6 witness: a ratio-symmetric pair on which the scores agree. -/
theorem c6_score_symmetry_conditional_witness :
    ratioQ (normalizeName "Acme Robotics").toList (normalizeName "Acme Robotix").toList =
      ratioQ (normalizeName "Acme Robotix").toList (normalizeName "Acme Robotics").toList ∧
    calcSim "Acme Robotics" "Acme Robotix" = calcSim "Acme Robotix" "Acme Robotics" :=
  ⟨by decide, c6_score_symmetry_conditional "Acme Robotics" "Acme Robotix" (by decide)⟩

/-- C6 counterexample: the score is not symmetric.  On the single-token names
`bdab` and `abdb` (normalization is the identity, no acronym or short-name
adjustment applies), difflib's greedy matching finds 3 matching characters in
one order but only 2 in the other: score("bdab","abdb") = 0.75 while
score("abdb","bdab") = 0.5. -/
theorem c6_symmetry_counterexample :
    calcSim "bdab" "abdb" = q 3 4 ∧
    calcSim "abdb" "bdab" = q 1 2 ∧
    calcSim "bdab" "abdb" ≠ calcSim "abdb" "bdab" := by
  refine ⟨by decide, by decide, by decide⟩

/-- The metadata update writes only the companies table. -/
theorem updateCompanyMetadata_events (db : DB) (cid : Nat) (name : String)
    (country : Option String) (seen : String) (nd : Option String) :
    (updateCompanyMetadata db cid name country seen nd).events = db.events := by
  unfold updateCompanyMetadata
  cases db.companies.find? (fun c => c.id == cid) <;> rfl

/-- The resolve-and-upsert operation writes only the companies table. -/
theorem upsertCompany_events (db : DB) (name : String) (country : Option String)
    (seen : String) (domain : Option String) (ids : List (String × String)) :
    (upsertCompany db name country seen domain ids).2.events = db.events := by
  unfold upsertCompany
  cases ids.findSome? (fun p => if p.2 ≠ "" then findCompanyByIdentifier db p.1 p.2 else none) with
  | some cid => exact updateCompanyMetadata_events db cid name country seen domain
  | none =>
    cases findDuplicateCandidates db name country ids with
    | nil => rfl
    | cons c rest =>
      by_cases hc : q 85 100 ≤ c.confidence
      · simpa [hc] using updateCompanyMetadata_events db c.company_id name country seen domain
      · simp [hc, insertCompany]

/-- The event loop never removes funding events: every write performed before
any point of the loop survives to its end. -/
theorem processEvents_events_len (src : String) :
    ∀ (evs : List PipelineEvent) (db : DB) (n : Nat),
      db.events.length ≤ (processEvents src db evs n).1.events.length := by
  intro evs
  induction evs with
  | nil =>
    intro db n
    exact Nat.le_refl _
  | cons ev rest ih =>
    intro db n
    by_cases hname : pyStrip ev.company_name = ""
    · simpa [processEvents, hname] using ih db n
    · cases hsf : ev.store_fail with
      | some msg => simp [processEvents, hname, hsf]
      | none =>
        simp only [processEvents, hname, hsf, if_neg, ite_false]
        refine Nat.le_trans ?_ (ih _ (n + 1))
        simp [addFundingEvent, upsertCompany_events]

/-- C3 (amended): when a store mutation fails mid-run, the run is recorded in
the IngestRun ledger with status `failed` and the captured error message, but
nothing is rolled back: `get_conn` commits in its `finally` clause on every
exit path, so every write performed before the failure survives — the final
store is exactly the mid-run state reached at the failure, plus the ledger
row. -/
theorem c3_failed_run_keeps_prefix_writes (db : DB) (evs : List PipelineEvent)
    (src t0 t1 m : String) (db1 : DB) (n : Nat)
    (h : processEvents src db evs 0 = (db1, n, some m)) :
    runOneSource db evs src t0 t1 =
      (logIngestRun db1 src t0 t1 "failed" evs.length n (some m)).2 ∧
    (runOneSource db evs src t0 t1).events = db1.events ∧
    db.events.length ≤ db1.events.length ∧
    ∃ r ∈ (runOneSource db evs src t0 t1).runs,
      r.status = "failed" ∧ r.errors = some m ∧ r.records_normalized = n := by
  have h1 : runOneSource db evs src t0 t1 =
      (logIngestRun db1 src t0 t1 "failed" evs.length n (some m)).2 := by
    simp [runOneSource, h]
  have h2 : (runOneSource db evs src t0 t1).events = db1.events := by
    rw [h1]
    rfl
  have h3 : db.events.length ≤ db1.events.length := by
    have := processEvents_events_len src evs db 0
    rw [h] at this
    exact this
  refine ⟨h1, h2, h3, ?_⟩
  rw [h1]
  refine ⟨{ id := db1.nextRunId, source := src, started_at := t0, finished_at := t1,
            status := "failed", records_fetched := evs.length, records_normalized := n,
            errors := some m }, ?_, rfl, rfl, rfl⟩
  simp [logIngestRun]

/-- C3 witness: a two-event run over an empty store whose second store
mutation fails is logged as `failed` with the error and keeps the one
committed funding event. -/
theorem c3_failed_run_keeps_prefix_writes_witness :
    processEvents "usaspending" emptyDB [evOk, evBad] 0 = (dbAfterOk, 1, some "database is locked") ∧
    (runOneSource emptyDB [evOk, evBad] "usaspending" "t0" "t1" =
        (logIngestRun dbAfterOk "usaspending" "t0" "t1" "failed" 2 1 (some "database is locked")).2 ∧
      (runOneSource emptyDB [evOk, evBad] "usaspending" "t0" "t1").events = dbAfterOk.events ∧
      emptyDB.events.length ≤ dbAfterOk.events.length ∧
      ∃ r ∈ (runOneSource emptyDB [evOk, evBad] "usaspending" "t0" "t1").runs,
        r.status = "failed" ∧ r.errors = some "database is locked" ∧ r.records_normalized = 1) :=
  ⟨by decide,
   c3_failed_run_keeps_prefix_writes emptyDB [evOk, evBad] "usaspending" "t0" "t1"
     "database is locked" dbAfterOk 1 (by decide)⟩

/-- C3 counterexample: in that same run the store-mutation failure is
recorded as a failed run, yet one funding event from the run survives in the
store — the claim asserts no partial writes survive (rollback). -/
theorem c3_partial_write_counterexample :
    (runOneSource emptyDB [evOk, evBad] "usaspending" "t0" "t1").events.length = 1 ∧
    (runOneSource emptyDB [evOk, evBad] "usaspending" "t0" "t1").runs.map
        (fun r => (r.status, r.errors)) = [("failed", some "database is locked")] := by
  refine ⟨by decide, by decide⟩

/-- C9 counterexample: with stored company name `AB` and query `AB`, the
similarity is 1.0 and both collapses have length 2 (at most 3), so by the
claim the candidate must keep matchType `name_similarity` with confidence
1.0; the code instead emits matchType `name_similarity_domain` with the
boosted-capped confidence 0.95, because `_normalized_domain` returns None for
both names and None equals None. -/
theorem c9_short_collapse_boost_counterexample :
    findByNameSimilarity dbShortName "AB" none =
      [{ company_id := 1, name := "AB", country := none, domain := none,
         confidence := q 19 20, match_type := "name_similarity_domain" }] ∧
    calcSim "AB" "AB" = natQ 1 ∧
    ¬ 3 < (collapseAlnum "AB").length ∧
    collapseAlnum "AB" = collapseAlnum "AB" := by
  refine ⟨by decide, by decide, by decide, rfl⟩

/-- A name compared with itself normalizes identically, so the similarity
score is exactly 1 for every nonempty name. -/
theorem calcSim_self (n : String) (h : n ≠ "") : calcSim n n = natQ 1 := by
  simp [calcSim, h]

/-- Scanning a company that carries exactly the observed name yields the
domain-boosted candidate with confidence 0.95: the self-similarity is 1,
`_normalized_domain` agrees with itself (whether or not it is None), and the
boost caps 1.2 at 0.95. -/
theorem candFor_self (name : String) (h : name ≠ "") (c : Company) (hc : c.name = name) :
    candFor name c = some { company_id := c.id, name := c.name, country := c.country,
                            domain := c.domain, confidence := q 19 20,
                            match_type := "name_similarity_domain" } := by
  have hconf : qmin (q 95 100) (qadd (natQ 1) (q 2 10)) = q 19 20 := by decide
  simp [candFor, hc, calcSim_self name h, show q 6 10 ≤ natQ 1 from by decide, hconf]

/-- Resolving an observation against the empty store creates its row. -/
theorem upsertStep_empty (name : String) (country domain : Option String) (d : String) :
    upsertStep name country d domain emptyDB = obsDB name country domain d := rfl

/-- Re-applying the metadata update with the row's own observation values
changes nothing: the date comparisons are reflexive, name and country are
overwritten with themselves, and `ifnull` keeps the domain. -/
theorem updateCompanyMetadata_obs (name : String) (country domain : Option String) (d : String) :
    updateCompanyMetadata (obsDB name country domain d) 1 name country d domain =
      obsDB name country domain d := by
  have h1 : (obsDB name country domain d).companies.find? (fun c => c.id == 1) =
      some (obsRow name country domain d) := rfl
  unfold updateCompanyMetadata
  rw [h1]
  cases domain with
  | none => simp [pyOrStr, ifnullOpt, obsDB, obsRow]
  | some dv => simp [pyOrStr, ifnullOpt, obsDB, obsRow]

/-- Resolving the same observation against its own created row finds that row
at confidence 0.95 (at or above the 0.85 auto-accept threshold) and leaves
the store unchanged. -/
theorem upsertStep_fixed (name : String) (h : name ≠ "") (country domain : Option String)
    (d : String) :
    upsertStep name country d domain (obsDB name country domain d) =
      obsDB name country domain d := by
  have hfilter : (obsDB name country domain d).companies.filter (countryKeep country) =
      [obsRow name country domain d] := by
    cases country with
    | none => rfl
    | some v =>
      by_cases hv : v = ""
      · subst hv
        rfl
      · simp [obsDB, obsRow, List.filter, countryKeep, hv]
  have hex : getExistingCompanies (obsDB name country domain d) country =
      [obsRow name country domain d] := by
    unfold getExistingCompanies
    rw [hfilter]
    rfl
  have hcf := candFor_self name h
    { id := 1, name := name, country := country, domain := domain,
      first_seen := some d, last_seen := some d } rfl
  have hfm : List.filterMap (candFor name) [obsRow name country domain d] =
      [{ company_id := 1, name := name, country := country, domain := domain,
         confidence := q 19 20, match_type := "name_similarity_domain" }] := by
    simp [List.filterMap_cons, obsRow, hcf]
  have hcands : findDuplicateCandidates (obsDB name country domain d) name country [] =
      [{ company_id := 1, name := name, country := country, domain := domain,
         confidence := q 19 20, match_type := "name_similarity_domain" }] := by
    unfold findDuplicateCandidates findByNameSimilarity
    rw [hex, hfm]
    rfl
  unfold upsertStep upsertCompany
  simp only [List.findSome?, hcands]
  rw [if_pos (show q 85 100 ≤ q 19 20 from by decide)]
  exact updateCompanyMetadata_obs name country domain d

/-- C1 (amended): idempotence of resolution for observations with a nonempty
name.  Starting from an empty store, applying the resolve-and-upsert
operation N ≥ 1 times with the same observation (name, country, seenDate,
domain) leaves exactly one company row for it, whose first_seen and last_seen
both equal the single observed date.  (The unrestricted claim fails for the
empty name; see the counterexample.) -/
theorem c1_resolve_idempotent (name : String) (h : name ≠ "") (country domain : Option String)
    (d : String) (N : Nat) (hN : 1 ≤ N) :
    ((upsertStep name country d domain)^[N] emptyDB).companies =
      [{ id := 1, name := name, country := country, domain := domain,
         first_seen := some d, last_seen := some d }] := by
  obtain ⟨k, rfl⟩ : ∃ k, N = k + 1 := ⟨N - 1, by omega⟩
  rw [Function.iterate_succ_apply, upsertStep_empty]
  have hfix : ∀ j, (upsertStep name country d domain)^[j] (obsDB name country domain d) =
      obsDB name country domain d := by
    intro j
    induction j with
    | zero => rfl
    | succ j ih =>
      rw [Function.iterate_succ_apply, upsertStep_fixed name h country domain d, ih]
  rw [hfix k]
  rfl

/-- C1 witness: three identical observations of one company produce exactly
its one row with both dates equal to the observed date. -/
theorem c1_resolve_idempotent_witness :
    "Acme Robotics" ≠ "" ∧ 1 ≤ 3 ∧
    ((upsertStep "Acme Robotics" (some "US") "2024-01-01" (some "acme.com"))^[3] emptyDB).companies =
      [{ id := 1, name := "Acme Robotics", country := some "US", domain := some "acme.com",
         first_seen := some "2024-01-01", last_seen := some "2024-01-01" }] :=
  ⟨by decide, by decide,
   c1_resolve_idempotent "Acme Robotics" (by decide) (some "US") (some "acme.com")
     "2024-01-01" 3 (by decide)⟩

/-- C1 counterexample: for the empty-name observation (canonical events
default the company name to the empty string), the similarity scorer returns
0 against every stored row, so each repetition creates a fresh company row —
two calls yield two rows, not one. -/
theorem c1_empty_name_counterexample :
    ((upsertStep "" none "2024-01-01" none)^[2] emptyDB).companies.length = 2 := by
  decide
